import Mathlib

/-!
Verification development for `client_config_manager/config_manager.py`.

The Python module is shallowly embedded: JSON documents become an inductive
`Json` type whose objects are association lists in insertion order, Python
dictionaries become `List (String × _)` with Python dict lookup/assignment
semantics, raised exceptions become `Except PyErr`, and the external world
(HTTP client and filesystem) becomes an explicit `World` record.  The two
classes `ClientConfig` and `ConfigManager` keep their field and method names.

Field types follow the source's type annotations (`name: str`,
`namespace: str = None`, `custom_properties: dict = None`); the keyword
`namespace` is spelled `name_space` because `namespace` is reserved in Lean.
Diagnostic `print` calls inside the parse routine are modelled as an emitted
log of strings (quotation marks inside the original messages are dropped).
-/

set_option maxHeartbeats 1000000

/-- JSON values as handed over by `json.load` / `response.json()`: objects are
association lists in insertion order; numbers are modelled as integers (the
documents in this development only need integral numbers). -/
inductive Json where
  | null : Json
  | bool (b : Bool) : Json
  | num (n : Int) : Json
  | str (s : String) : Json
  | arr (elems : List Json) : Json
  | obj (entries : List (String × Json)) : Json

/-- Test for `isinstance(x, dict)`. -/
def Json.isObj : Json → Bool
  | Json.obj _ => true
  | _ => false

/-- Python dict lookup `d.get(key)` on an association list: first entry with
the given key (documents produced by `json.load` have unique keys). -/
def lookupKey {α : Type} : List (String × α) → String → Option α
  | [], _ => none
  | (k, v) :: rest, key => if k = key then some v else lookupKey rest key

/-- Python dict assignment `d[key] = v`: replaces the value in place if the
key is present, otherwise appends a new entry at the end (insertion order). -/
def setKey {α : Type} : List (String × α) → String → α → List (String × α)
  | [], key, v => [(key, v)]
  | (k, w) :: rest, key, v =>
    if k = key then (key, v) :: rest else (k, w) :: setKey rest key v

/-- The exception classes raised by `config_manager.py`:
`ValueError`, `KeyError`, `TypeError`, `IOError`, `FileNotFoundError`. -/
inductive PyErr where
  | valueError (msg : String) : PyErr
  | keyError (msg : String) : PyErr
  | typeError (msg : String) : PyErr
  | ioError (msg : String) : PyErr
  | fileNotFoundError (msg : String) : PyErr

/-- The message carried by an exception. -/
def PyErr.msg : PyErr → String
  | .valueError m => m
  | .keyError m => m
  | .typeError m => m
  | .ioError m => m
  | .fileNotFoundError m => m

/-- The per-entry handler in `_parse_config_data` catches exactly the tuple
`(KeyError, ValueError)`. -/
def PyErr.caughtPerEntry : PyErr → Bool
  | .keyError _ => true
  | .valueError _ => true
  | _ => false

/-- One client's configuration (`class ClientConfig`), with the field types of
the source's annotations.  `name_space` renders the Python field `namespace`;
its `none` is Python `None`. -/
structure ClientConfig where
  name : String
  endpoint_url : String
  hostname : String
  name_space : Option String
  custom_properties : List (String × Json)

/-- `ClientConfig.__init__`: rejects empty `name`, `endpoint_url`, `hostname`
(in that order, `if not x` on a `str` meaning emptiness) with `ValueError`;
`custom_properties if custom_properties is not None else {}`. -/
def ClientConfig.init (name endpoint_url hostname : String)
    (name_space : Option String := none)
    (custom_properties : Option (List (String × Json)) := none) :
    Except PyErr ClientConfig :=
  if name = "" then .error (.valueError "Client name cannot be empty.")
  else if endpoint_url = "" then .error (.valueError "Endpoint URL cannot be empty.")
  else if hostname = "" then .error (.valueError "Hostname cannot be empty.")
  else .ok { name := name, endpoint_url := endpoint_url, hostname := hostname,
             name_space := name_space,
             custom_properties := custom_properties.getD [] }

/-- The invariant `__init__` establishes: the three required fields are
non-empty.  Every Python `ClientConfig` instance satisfies it, since the
class's only constructor validates it. -/
def ClientConfig.Valid (c : ClientConfig) : Prop :=
  c.name ≠ "" ∧ c.endpoint_url ≠ "" ∧ c.hostname ≠ ""

instance (c : ClientConfig) : Decidable c.Valid := by
  unfold ClientConfig.Valid; infer_instance

/-- Python `None`-or-string field rendered as a JSON value (what `json.dump`
writes for the `namespace` slot of `to_dict`). -/
def jsonOfOptStr : Option String → Json
  | none => Json.null
  | some s => Json.str s

/-- `ClientConfig.to_dict`: the dictionary, in insertion order, that the
source builds. -/
def ClientConfig.to_dict (c : ClientConfig) : List (String × Json) :=
  [("name", Json.str c.name),
   ("endpoint_url", Json.str c.endpoint_url),
   ("hostname", Json.str c.hostname),
   ("namespace", jsonOfOptStr c.name_space),
   ("custom_properties", Json.obj c.custom_properties)]

/-- `data[key]`: raises `KeyError(key)` when the key is absent. -/
def requiredKey (data : List (String × Json)) (key : String) : Except PyErr Json :=
  match lookupKey data key with
  | some v => .ok v
  | none => .error (.keyError key)

/-- Reads a JSON value into the `str`-annotated slot of `ClientConfig`.
A value of any other JSON type is outside the record format documented for
the module (the dynamically typed source would store it unchecked); the
embedding rejects it with a `ValueError` so that the parse routine treats it
like any other per-entry validation failure. -/
def decodeStr : Json → Except PyErr String
  | Json.str s => .ok s
  | _ => .error (.valueError "expected a string value")

/-- Reads a JSON value into the optional-`str` slot `namespace`; `null` is
Python `None`.  Other JSON types are outside the documented record format. -/
def decodeOptStr : Json → Except PyErr (Option String)
  | Json.null => .ok none
  | Json.str s => .ok (some s)
  | _ => .error (.valueError "expected a string value or null")

/-- Reads a JSON value into the optional-`dict` slot `custom_properties`;
`null` is Python `None`.  Other JSON types are outside the documented record
format. -/
def decodeOptObj : Json → Except PyErr (Option (List (String × Json)))
  | Json.null => .ok none
  | Json.obj kvs => .ok (some kvs)
  | _ => .error (.valueError "expected an object value or null")

/-- `ClientConfig.from_dict`: the three required subscripts are evaluated in
source order (`KeyError` for the first absent one), `namespace` and
`custom_properties` use `.get` defaulting to `None`, and the values are
passed to `__init__`. -/
def ClientConfig.from_dict (data : List (String × Json)) : Except PyErr ClientConfig :=
  match requiredKey data "name" with
  | .error e => .error e
  | .ok nameJ =>
    match requiredKey data "endpoint_url" with
    | .error e => .error e
    | .ok endpointJ =>
      match requiredKey data "hostname" with
      | .error e => .error e
      | .ok hostJ =>
        match decodeStr nameJ with
        | .error e => .error e
        | .ok name =>
          match decodeStr endpointJ with
          | .error e => .error e
          | .ok endpoint_url =>
            match decodeStr hostJ with
            | .error e => .error e
            | .ok hostname =>
              match decodeOptStr ((lookupKey data "namespace").getD Json.null) with
              | .error e => .error e
              | .ok name_space =>
                match decodeOptObj ((lookupKey data "custom_properties").getD Json.null) with
                | .error e => .error e
                | .ok custom_properties =>
                  ClientConfig.init name endpoint_url hostname name_space custom_properties

/-- The warning printed when the `name` field of a record is corrected
(quotation marks of the original message dropped). -/
def warnMsg (client_name : String) : String :=
  "Warning: name field in client config for " ++ client_name ++
    " did not match the key. Corrected."

/-- The message printed when a per-entry failure is caught and the entry is
skipped. -/
def skipMsg (client_name : String) (e : PyErr) : String :=
  "Error parsing configuration for client " ++ client_name ++ ": " ++ e.msg ++
    ". Skipping this client."

/-- The negation of the source's correction trigger
`"name" not in client_data or client_data["name"] != client_name`:
true exactly when the record has a `name` field equal (as a Python value)
to the outer key. -/
def nameMatchesKey (client_name : String) (d : List (String × Json)) : Bool :=
  match lookupKey d "name" with
  | some (Json.str s) => s == client_name
  | _ => false

/-- The record after the correction step
`client_data["name"] = client_name` (applied only when the trigger fires). -/
def correctName (client_name : String) (d : List (String × Json)) :
    List (String × Json) :=
  if nameMatchesKey client_name d then d
  else setKey d "name" (Json.str client_name)

/-- The body of the `for client_name, client_data in config_data.items()` loop
of `_parse_config_data`, threading the mapping being populated and the log of
printed diagnostics.  A non-`dict` record raises `TypeError` at
`"name" not in client_data` or at the corrective assignment, and `TypeError`
is not in the caught tuple, so it aborts the whole load. -/
def parseEntries (cfgs : List (String × ClientConfig)) (log : List String) :
    List (String × Json) → Except PyErr (List (String × ClientConfig) × List String)
  | [] => .ok (cfgs, log)
  | (client_name, client_data) :: rest =>
    match client_data with
    | Json.obj d =>
      let log1 := if nameMatchesKey client_name d then log
                  else log ++ [warnMsg client_name]
      match ClientConfig.from_dict (correctName client_name d) with
      | .ok c => parseEntries (setKey cfgs client_name c) log1 rest
      | .error e =>
        if e.caughtPerEntry then parseEntries cfgs (log1 ++ [skipMsg client_name e]) rest
        else .error e
    | _ => .error (.typeError "argument of type is not iterable")

/-- `ConfigManager._parse_config_data`: rejects a non-`dict` top-level
document with `ValueError`, then folds the per-entry loop over the document
starting from the current mapping. -/
def parse_config_data (cfgs : List (String × ClientConfig)) (config_data : Json) :
    Except PyErr (List (String × ClientConfig) × List String) :=
  match config_data with
  | Json.obj entries => parseEntries cfgs [] entries
  | _ => .error (.valueError "Configuration data must be a dictionary.")

/-- Characters `urlparse` accepts inside a scheme after the leading letter. -/
def isSchemeChar (c : Char) : Bool :=
  c.isAlphanum || c = '+' || c = '-' || c = '.'

/-- The characters before the first colon, or `none` when there is no colon. -/
def splitScheme : List Char → Option (List Char)
  | [] => none
  | c :: rest =>
    if c = ':' then some []
    else
      match splitScheme rest with
      | some pre => some (c :: pre)
      | none => none

/-- The `scheme` component of `urllib.parse.urlparse`: the lowercased text
before the first colon when it is non-empty, starts with a letter and
consists of scheme characters; the empty string otherwise. -/
def urlScheme (s : String) : String :=
  match splitScheme s.data with
  | none => ""
  | some [] => ""
  | some (c :: pre) =>
    if c.isAlpha && (c :: pre).all isSchemeChar then
      String.mk ((c :: pre).map Char.toLower)
    else ""

/-- Outcome of `requests.get(url)` followed by `raise_for_status()` and
`.json()`: `failure` is a `RequestException` (transport failure or non-success
HTTP status), `success none` a response whose body is not valid JSON
(`json.JSONDecodeError`), `success (some doc)` a parsed JSON body. -/
inductive FetchResult where
  | failure (msg : String) : FetchResult
  | success (body : Option Json) : FetchResult

/-- Outcome of `open(file_path)` followed by `json.load`: `vanished` is
`FileNotFoundError` (the path disappeared after the existence check),
`invalid` a `json.JSONDecodeError`, `content doc` a parsed document. -/
inductive ReadResult where
  | vanished : ReadResult
  | invalid : ReadResult
  | content (doc : Json) : ReadResult

/-- The external world the manager interacts with: the HTTP client and the
filesystem (existence check and read-with-parse). -/
structure World where
  http : String → FetchResult
  pathExists : String → Bool
  readFile : String → ReadResult

/-- `ConfigManager._download_and_load`: a `RequestException` is re-raised as
`IOError`, a `json.JSONDecodeError` from `.json()` as `ValueError`; errors of
`_parse_config_data` (a plain `ValueError` or a `TypeError`) match neither
`except` clause and propagate unchanged. -/
def download_and_load (w : World) (url : String)
    (cfgs : List (String × ClientConfig)) :
    Except PyErr (List (String × ClientConfig)) :=
  match w.http url with
  | .failure m =>
    .error (.ioError ("Failed to download configurations from " ++ url ++ ": " ++ m))
  | .success none => .error (.valueError ("Failed to parse JSON from " ++ url))
  | .success (some doc) => (parse_config_data cfgs doc).map Prod.fst

/-- `ConfigManager._load_from_local_file`: `FileNotFoundError` is re-raised
with a new message, `json.JSONDecodeError` as `ValueError`; errors of
`_parse_config_data` propagate unchanged. -/
def load_from_local_file (w : World) (file_path : String)
    (cfgs : List (String × ClientConfig)) :
    Except PyErr (List (String × ClientConfig)) :=
  match w.readFile file_path with
  | .vanished =>
    .error (.fileNotFoundError ("Configuration file not found at: " ++ file_path))
  | .invalid => .error (.valueError ("Failed to parse JSON from " ++ file_path))
  | .content doc => (parse_config_data cfgs doc).map Prod.fst

/-- `ConfigManager._load_configurations`: classify the source by `urlparse`
scheme, then by filesystem existence; otherwise raise `ValueError`. -/
def load_configurations (w : World) (cfgs : List (String × ClientConfig))
    (source : String) : Except PyErr (List (String × ClientConfig)) :=
  if urlScheme source = "http" ∨ urlScheme source = "https" then
    download_and_load w source cfgs
  else if w.pathExists source then
    load_from_local_file w source cfgs
  else
    .error (.valueError ("Invalid config_source: " ++ source ++
      ". Must be a valid URL or local file path."))

/-- The manager state (`class ConfigManager`); `client_configs` renders the
private dict `_client_configs`, `loaded_from_source` the flag
`_loaded_from_source`. -/
structure ConfigManager where
  config_source : Option String
  default_filename : String
  client_configs : List (String × ClientConfig)
  loaded_from_source : Bool

/-- `ConfigManager.__init__`: the load runs only under `if self.config_source:`
(Python truthiness, so `None` and the empty string both skip it); a raised
load error propagates out of construction, so no manager value is produced. -/
def ConfigManager.init (w : World) (config_source : Option String := none)
    (default_filename : String := "client_configs.json") :
    Except PyErr ConfigManager :=
  match config_source with
  | none => .ok ⟨none, default_filename, [], false⟩
  | some src =>
    if src = "" then .ok ⟨some src, default_filename, [], false⟩
    else
      match load_configurations w [] src with
      | .ok cfgs => .ok ⟨some src, default_filename, cfgs, true⟩
      | .error e => .error e

/-- `ConfigManager.get_client_config`: raises `KeyError` when the name is
absent, otherwise returns the stored instance. -/
def ConfigManager.get_client_config (m : ConfigManager) (client_name : String) :
    Except PyErr ClientConfig :=
  match lookupKey m.client_configs client_name with
  | none =>
    .error (.keyError ("Client configuration for " ++ client_name ++ " not found."))
  | some c => .ok c

/-- `ConfigManager.register_client_config`: inserts or overwrites the entry
keyed by `client_config.name`; touches no other attribute and cannot fail. -/
def ConfigManager.register_client_config (m : ConfigManager) (c : ClientConfig) :
    ConfigManager :=
  { m with client_configs := setKey m.client_configs c.name c }

/-- Target-path resolution of `save_configurations`
(`if file_path is None: file_path = self.default_filename`). -/
def ConfigManager.save_target (m : ConfigManager) (file_path : Option String) : String :=
  match file_path with
  | none => m.default_filename
  | some p => p

/-- The document `save_configurations` serializes:
`{name: config.to_dict() for name, config in self._client_configs.items()}`. -/
def ConfigManager.save_output (m : ConfigManager) : Json :=
  Json.obj (m.client_configs.map (fun p => (p.1, Json.obj p.2.to_dict)))

/-- A successful create-or-truncate write of a JSON document: afterwards the
path exists and reading it back parses to the written document (`json.dump`
followed by `json.load` is the identity on this `Json` model, and both keep
object entries in insertion order). -/
def writeFile (w : World) (path : String) (doc : Json) : World :=
  { w with
    pathExists := fun q => if q = path then true else w.pathExists q,
    readFile := fun q => if q = path then ReadResult.content doc else w.readFile q }

/-- `ConfigManager.save_configurations` on its success path: writes the
serialized mapping to the resolved target (the `IOError` re-raise branch
writes nothing observable and is not needed by any claim). -/
def ConfigManager.save_configurations (w : World) (m : ConfigManager)
    (file_path : Option String := none) : World :=
  writeFile w (m.save_target file_path) m.save_output

/-- `ConfigManager.list_client_names`: `list(self._client_configs.keys())`. -/
def ConfigManager.list_client_names (m : ConfigManager) : List String :=
  m.client_configs.map Prod.fst

/-- `ConfigManager.__len__`. -/
def ConfigManager.size (m : ConfigManager) : Nat :=
  m.client_configs.length

/-- `ConfigManager.__contains__`. -/
def ConfigManager.containsName (m : ConfigManager) (client_name : String) : Bool :=
  (lookupKey m.client_configs client_name).isSome

/-! ### Association-list lemmas -/

theorem lookupKey_eq_none {α : Type} (d : List (String × α)) (k : String) :
    lookupKey d k = none ↔ k ∉ d.map Prod.fst := by
  induction d with
  | nil => simp [lookupKey]
  | cons p rest ih =>
    obtain ⟨k', v⟩ := p
    by_cases h : k' = k
    · subst h; simp [lookupKey]
    · simp [lookupKey, h, ih, Ne.symm h]

theorem lookupKey_setKey_self {α : Type} (d : List (String × α)) (k : String) (v : α) :
    lookupKey (setKey d k v) k = some v := by
  induction d with
  | nil => simp [setKey, lookupKey]
  | cons p rest ih =>
    obtain ⟨k', w⟩ := p
    by_cases h : k' = k
    · simp [setKey, h, lookupKey]
    · simp [setKey, h, lookupKey, ih]

theorem lookupKey_setKey_ne {α : Type} (d : List (String × α)) (k key : String) (v : α)
    (h : key ≠ k) : lookupKey (setKey d k v) key = lookupKey d key := by
  induction d with
  | nil => simp [setKey, lookupKey, Ne.symm h]
  | cons p rest ih =>
    obtain ⟨k', w⟩ := p
    by_cases hk : k' = k
    · subst hk; simp [setKey, lookupKey, Ne.symm h]
    · by_cases hkey : k' = key
      · subst hkey; simp [setKey, hk, lookupKey]
      · simp [setKey, hk, lookupKey, hkey, ih]

theorem keys_setKey {α : Type} (d : List (String × α)) (k : String) (v : α) :
    (setKey d k v).map Prod.fst =
      if k ∈ d.map Prod.fst then d.map Prod.fst else d.map Prod.fst ++ [k] := by
  induction d with
  | nil => simp [setKey]
  | cons p rest ih =>
    obtain ⟨k', w⟩ := p
    by_cases h : k' = k
    · subst h; simp [setKey]
    · simp only [setKey, if_neg h, List.map_cons]
      rw [ih]
      by_cases hm : k ∈ rest.map Prod.fst
      · simp [hm, Ne.symm h]
      · simp [hm, Ne.symm h]

theorem nodup_keys_setKey {α : Type} (d : List (String × α)) (k : String) (v : α)
    (h : (d.map Prod.fst).Nodup) : ((setKey d k v).map Prod.fst).Nodup := by
  rw [keys_setKey]
  by_cases hm : k ∈ d.map Prod.fst
  · simpa [hm] using h
  · simp only [if_neg hm]
    refine h.append (List.nodup_singleton k) ?_
    intro a ha hak
    simp only [List.mem_singleton] at hak
    exact hm (hak ▸ ha)

theorem mem_setKey {α : Type} (d : List (String × α)) (k : String) (v : α)
    (p : String × α) (h : p ∈ setKey d k v) : p = (k, v) ∨ p ∈ d := by
  induction d with
  | nil => simpa [setKey] using h
  | cons q rest ih =>
    obtain ⟨k', w⟩ := q
    by_cases hk : k' = k
    · subst hk
      simp only [setKey, if_pos rfl] at h
      rcases List.mem_cons.mp h with h | h
      · exact Or.inl h
      · exact Or.inr (List.mem_cons_of_mem _ h)
    · simp only [setKey, if_neg hk] at h
      rcases List.mem_cons.mp h with h | h
      · exact Or.inr (h ▸ List.mem_cons_self _ _)
      · rcases ih h with h | h
        · exact Or.inl h
        · exact Or.inr (List.mem_cons_of_mem _ h)

theorem setKey_eq_append {α : Type} (d : List (String × α)) (k : String) (v : α)
    (h : lookupKey d k = none) : setKey d k v = d ++ [(k, v)] := by
  induction d with
  | nil => simp [setKey]
  | cons p rest ih =>
    obtain ⟨k', w⟩ := p
    by_cases hk : k' = k
    · subst hk; simp [lookupKey] at h
    · simp only [lookupKey, if_neg hk] at h
      simp [setKey, hk, ih h]

theorem lookupKey_append {α : Type} (d₁ d₂ : List (String × α)) (k : String) :
    lookupKey (d₁ ++ d₂) k =
      match lookupKey d₁ k with
      | some v => some v
      | none => lookupKey d₂ k := by
  induction d₁ with
  | nil => simp [lookupKey]
  | cons p rest ih =>
    obtain ⟨k', v⟩ := p
    by_cases h : k' = k
    · simp [lookupKey, h]
    · simp [lookupKey, h, ih]

theorem lookupKey_of_mem {α : Type} (d : List (String × α)) (k : String) (v : α)
    (hnd : (d.map Prod.fst).Nodup) (h : (k, v) ∈ d) : lookupKey d k = some v := by
  induction d with
  | nil => simp at h
  | cons p rest ih =>
    obtain ⟨k', w⟩ := p
    rcases List.mem_cons.mp h with h | h
    · cases h; simp [lookupKey]
    · have hk : k' ≠ k := by
        rintro rfl
        exact (List.nodup_cons.mp hnd).1 (List.mem_map.mpr ⟨(k', v), h, rfl⟩)
      simp [lookupKey, hk, ih (List.nodup_cons.mp hnd).2 h]

theorem lookupKey_mem {α : Type} (d : List (String × α)) (k : String) (v : α)
    (h : lookupKey d k = some v) : (k, v) ∈ d := by
  induction d with
  | nil => simp [lookupKey] at h
  | cons p rest ih =>
    obtain ⟨k', w⟩ := p
    by_cases hk : k' = k
    · subst hk
      simp [lookupKey] at h
      subst h
      exact List.mem_cons_self _ _
    · simp only [lookupKey, if_neg hk] at h
      exact List.mem_cons_of_mem _ (ih h)

/-! ### Inversion lemmas for record construction -/

theorem requiredKey_error (data : List (String × Json)) (key : String) (e : PyErr)
    (h : requiredKey data key = .error e) : e = .keyError key := by
  unfold requiredKey at h
  split at h
  · cases h
  · cases h; rfl

theorem requiredKey_ok (data : List (String × Json)) (key : String) (v : Json)
    (h : requiredKey data key = .ok v) : lookupKey data key = some v := by
  unfold requiredKey at h
  split at h
  · cases h; assumption
  · cases h

theorem decodeStr_error (j : Json) (e : PyErr) (h : decodeStr j = .error e) :
    ∃ m, e = .valueError m := by
  unfold decodeStr at h
  split at h
  · cases h
  · cases h; exact ⟨_, rfl⟩

theorem decodeStr_ok (j : Json) (s : String) (h : decodeStr j = .ok s) :
    j = Json.str s := by
  unfold decodeStr at h
  split at h
  · cases h; rfl
  · cases h

theorem decodeOptStr_error (j : Json) (e : PyErr) (h : decodeOptStr j = .error e) :
    ∃ m, e = .valueError m := by
  unfold decodeOptStr at h
  split at h
  · cases h
  · cases h
  · cases h; exact ⟨_, rfl⟩

theorem decodeOptObj_error (j : Json) (e : PyErr) (h : decodeOptObj j = .error e) :
    ∃ m, e = .valueError m := by
  unfold decodeOptObj at h
  split at h
  · cases h
  · cases h
  · cases h; exact ⟨_, rfl⟩

theorem ClientConfig.init_error (name endpoint_url hostname : String)
    (name_space : Option String) (custom_properties : Option (List (String × Json)))
    (e : PyErr)
    (h : ClientConfig.init name endpoint_url hostname name_space custom_properties
          = .error e) : ∃ m, e = .valueError m := by
  unfold ClientConfig.init at h
  split at h
  · cases h; exact ⟨_, rfl⟩
  · split at h
    · cases h; exact ⟨_, rfl⟩
    · split at h
      · cases h; exact ⟨_, rfl⟩
      · cases h

theorem ClientConfig.init_ok (name endpoint_url hostname : String)
    (name_space : Option String) (custom_properties : Option (List (String × Json)))
    (c : ClientConfig)
    (h : ClientConfig.init name endpoint_url hostname name_space custom_properties
          = .ok c) :
    c = ⟨name, endpoint_url, hostname, name_space, custom_properties.getD []⟩ ∧
      c.Valid := by
  unfold ClientConfig.init at h
  split at h
  · cases h
  · split at h
    · cases h
    · split at h
      · cases h
      · cases h
        exact ⟨rfl, by unfold ClientConfig.Valid; exact ⟨by assumption, by assumption, by assumption⟩⟩

theorem ClientConfig.init_of_valid (c : ClientConfig) (hc : c.Valid) :
    ClientConfig.init c.name c.endpoint_url c.hostname c.name_space
      (some c.custom_properties) = .ok c := by
  obtain ⟨h1, h2, h3⟩ := hc
  unfold ClientConfig.init
  rw [if_neg h1, if_neg h2, if_neg h3]
  rfl

theorem ClientConfig.from_dict_error_caught (data : List (String × Json)) (e : PyErr)
    (h : ClientConfig.from_dict data = .error e) : e.caughtPerEntry = true := by
  unfold ClientConfig.from_dict at h
  split at h
  case _ e' heq => cases h; rw [requiredKey_error _ _ _ heq]; rfl
  split at h
  case _ e' heq => cases h; rw [requiredKey_error _ _ _ heq]; rfl
  split at h
  case _ e' heq => cases h; rw [requiredKey_error _ _ _ heq]; rfl
  split at h
  case _ e' heq =>
    cases h; obtain ⟨m, rfl⟩ := decodeStr_error _ _ heq; rfl
  split at h
  case _ e' heq =>
    cases h; obtain ⟨m, rfl⟩ := decodeStr_error _ _ heq; rfl
  split at h
  case _ e' heq =>
    cases h; obtain ⟨m, rfl⟩ := decodeStr_error _ _ heq; rfl
  split at h
  case _ e' heq =>
    cases h; obtain ⟨m, rfl⟩ := decodeOptStr_error _ _ heq; rfl
  split at h
  case _ e' heq =>
    cases h; obtain ⟨m, rfl⟩ := decodeOptObj_error _ _ heq; rfl
  obtain ⟨m, rfl⟩ := ClientConfig.init_error _ _ _ _ _ _ h
  rfl

theorem ClientConfig.from_dict_ok_fields (data : List (String × Json)) (c : ClientConfig)
    (h : ClientConfig.from_dict data = .ok c) :
    lookupKey data "name" = some (Json.str c.name) ∧ c.Valid := by
  unfold ClientConfig.from_dict at h
  split at h
  · cases h
  case _ nameJ hname =>
  split at h
  · cases h
  split at h
  · cases h
  split at h
  · cases h
  case _ name hdec =>
  split at h
  · cases h
  split at h
  · cases h
  split at h
  · cases h
  split at h
  · cases h
  obtain ⟨hc, hvalid⟩ := ClientConfig.init_ok _ _ _ _ _ _ h
  subst hc
  refine ⟨?_, hvalid⟩
  rw [requiredKey_ok _ _ _ hname, decodeStr_ok _ _ hdec]

/-! ### The name-correction step -/

theorem correctName_lookup_name (client_name : String) (d : List (String × Json)) :
    lookupKey (correctName client_name d) "name" = some (Json.str client_name) := by
  unfold correctName nameMatchesKey
  split
  case _ hb =>
    split at hb
    case _ s heq =>
      rw [heq]
      simp only [beq_iff_eq] at hb
      rw [hb]
    case _ => cases hb
  case _ => exact lookupKey_setKey_self _ _ _

theorem from_dict_correctName_name (client_name : String) (d : List (String × Json))
    (c : ClientConfig)
    (h : ClientConfig.from_dict (correctName client_name d) = .ok c) :
    c.name = client_name ∧ c.Valid := by
  obtain ⟨hl, hv⟩ := ClientConfig.from_dict_ok_fields _ _ h
  rw [correctName_lookup_name] at hl
  have := Option.some.inj hl
  exact ⟨(Json.str.inj this).symm, hv⟩

/-! ### Round trip of one record -/

theorem to_dict_lookup_name (c : ClientConfig) :
    lookupKey c.to_dict "name" = some (Json.str c.name) := by
  simp [ClientConfig.to_dict, lookupKey]

theorem correctName_to_dict (c : ClientConfig) :
    correctName c.name c.to_dict = c.to_dict := by
  unfold correctName
  rw [if_pos]
  unfold nameMatchesKey
  rw [to_dict_lookup_name]
  simp

theorem from_dict_to_dict (c : ClientConfig) (hc : c.Valid) :
    ClientConfig.from_dict c.to_dict = .ok c := by
  obtain ⟨h1, h2, h3⟩ := hc
  unfold ClientConfig.from_dict
  have hn : requiredKey c.to_dict "name" = .ok (Json.str c.name) := by
    simp [requiredKey, ClientConfig.to_dict, lookupKey]
  have he : requiredKey c.to_dict "endpoint_url" = .ok (Json.str c.endpoint_url) := by
    simp [requiredKey, ClientConfig.to_dict, lookupKey]
  have hh : requiredKey c.to_dict "hostname" = .ok (Json.str c.hostname) := by
    simp [requiredKey, ClientConfig.to_dict, lookupKey]
  have hns : (lookupKey c.to_dict "namespace").getD Json.null = jsonOfOptStr c.name_space := by
    simp [ClientConfig.to_dict, lookupKey]
  have hcp : (lookupKey c.to_dict "custom_properties").getD Json.null
      = Json.obj c.custom_properties := by
    simp [ClientConfig.to_dict, lookupKey]
  rw [hn, he, hh, hns, hcp]
  have hdns : decodeOptStr (jsonOfOptStr c.name_space) = .ok c.name_space := by
    cases h : c.name_space <;> simp [jsonOfOptStr, decodeOptStr]
  simp only [decodeStr, decodeOptObj, hdns]
  unfold ClientConfig.init
  rw [if_neg h1, if_neg h2, if_neg h3]
  rfl

/-! ### Denotation of the per-entry loop -/

/-- The outcome of handling one `(key, record)` pair: the config built from
the record after name correction, or the per-entry error. -/
def parsedEntry (client_name : String) : Json → Except PyErr ClientConfig
  | Json.obj d => ClientConfig.from_dict (correctName client_name d)
  | _ => .error (.typeError "argument of type is not iterable")

/-- The effect of one loop iteration on the mapping being populated:
insert/overwrite on success, skip on a caught per-entry failure. -/
def entryStep (cfgs : List (String × ClientConfig)) (client_name : String) (v : Json) :
    List (String × ClientConfig) :=
  match parsedEntry client_name v with
  | .ok c => setKey cfgs client_name c
  | .error _ => cfgs

/-- The mapping after folding the loop over a list of document entries. -/
def applyEntries (cfgs : List (String × ClientConfig)) (es : List (String × Json)) :
    List (String × ClientConfig) :=
  es.foldl (fun acc p => entryStep acc p.1 p.2) cfgs

/-- The diagnostics one loop iteration prints. -/
def entryLog (client_name : String) (v : Json) : List String :=
  match v with
  | Json.obj d =>
    (if nameMatchesKey client_name d then [] else [warnMsg client_name]) ++
      (match ClientConfig.from_dict (correctName client_name d) with
       | .ok _ => []
       | .error e => [skipMsg client_name e])
  | _ => []

/-- The diagnostics the whole loop prints. -/
def entriesLog (es : List (String × Json)) : List String :=
  (es.map (fun p => entryLog p.1 p.2)).flatten

theorem parseEntries_eq (es : List (String × Json))
    (cfgs : List (String × ClientConfig)) (log : List String)
    (hobj : ∀ p ∈ es, p.2.isObj = true) :
    parseEntries cfgs log es = .ok (applyEntries cfgs es, log ++ entriesLog es) := by
  induction es generalizing cfgs log with
  | nil => simp [parseEntries, applyEntries, entriesLog]
  | cons p rest ih =>
    obtain ⟨k, v⟩ := p
    have hv : v.isObj = true := hobj (k, v) (List.mem_cons_self _ _)
    cases v with
    | obj d =>
      have hrest : ∀ p ∈ rest, p.2.isObj = true :=
        fun p hp => hobj p (List.mem_cons_of_mem _ hp)
      show parseEntries cfgs log ((k, Json.obj d) :: rest) = _
      rw [parseEntries]
      cases hfd : ClientConfig.from_dict (correctName k d) with
      | ok c =>
        simp only [hfd]
        rw [ih _ _ hrest]
        have hstep : entryStep cfgs k (Json.obj d) = setKey cfgs k c := by
          simp [entryStep, parsedEntry, hfd]
        have hlog : entryLog k (Json.obj d)
            = (if nameMatchesKey k d then [] else [warnMsg k]) := by
          simp [entryLog, hfd]
        simp only [applyEntries, List.foldl_cons, entriesLog, List.map_cons, List.flatten]
        rw [hstep, hlog]
        by_cases hm : nameMatchesKey k d <;>
          simp [hm, applyEntries, entriesLog, List.append_assoc]
      | error e =>
        have hcaught : e.caughtPerEntry = true :=
          ClientConfig.from_dict_error_caught _ _ hfd
        simp only [hfd, hcaught, if_pos]
        rw [ih _ _ hrest]
        have hstep : entryStep cfgs k (Json.obj d) = cfgs := by
          simp [entryStep, parsedEntry, hfd]
        have hlog : entryLog k (Json.obj d)
            = (if nameMatchesKey k d then [] else [warnMsg k]) ++ [skipMsg k e] := by
          simp [entryLog, hfd]
        simp only [applyEntries, List.foldl_cons, entriesLog, List.map_cons, List.flatten]
        rw [hstep, hlog]
        by_cases hm : nameMatchesKey k d <;>
          simp [hm, applyEntries, entriesLog, List.append_assoc]
    | null => simp [Json.isObj] at hv
    | bool b => simp [Json.isObj] at hv
    | num n => simp [Json.isObj] at hv
    | str s => simp [Json.isObj] at hv
    | arr xs => simp [Json.isObj] at hv

theorem parseEntries_ok_objs (es : List (String × Json))
    (cfgs : List (String × ClientConfig)) (log : List String)
    (r : List (String × ClientConfig) × List String)
    (h : parseEntries cfgs log es = .ok r) : ∀ p ∈ es, p.2.isObj = true := by
  induction es generalizing cfgs log with
  | nil => simp
  | cons p rest ih =>
    obtain ⟨k, v⟩ := p
    intro q hq
    cases v with
    | obj d =>
      rcases List.mem_cons.mp hq with hq | hq
      · subst hq; rfl
      · rw [parseEntries] at h
        cases hfd : ClientConfig.from_dict (correctName k d) with
        | ok c =>
          rw [hfd] at h
          exact ih _ _ h q hq
        | error e =>
          have hcaught := ClientConfig.from_dict_error_caught _ _ hfd
          rw [hfd] at h
          simp only [hcaught, if_pos] at h
          exact ih _ _ h q hq
    | null => simp [parseEntries] at h
    | bool b => simp [parseEntries] at h
    | num n => simp [parseEntries] at h
    | str s => simp [parseEntries] at h
    | arr xs => simp [parseEntries] at h

theorem entryStep_lookup_ne (cfgs : List (String × ClientConfig))
    (k1 k : String) (v : Json) (h : k ≠ k1) :
    lookupKey (entryStep cfgs k1 v) k = lookupKey cfgs k := by
  unfold entryStep
  split
  · exact lookupKey_setKey_ne _ _ _ _ h
  · rfl

theorem applyEntries_lookup_not_mem (es : List (String × Json))
    (cfgs : List (String × ClientConfig)) (k : String)
    (h : k ∉ es.map Prod.fst) :
    lookupKey (applyEntries cfgs es) k = lookupKey cfgs k := by
  induction es generalizing cfgs with
  | nil => rfl
  | cons p rest ih =>
    obtain ⟨k0, v0⟩ := p
    simp only [List.map_cons, List.mem_cons] at h
    push_neg at h
    show lookupKey (applyEntries (entryStep cfgs k0 v0) rest) k = _
    rw [ih _ h.2, entryStep_lookup_ne _ _ _ _ h.1]

theorem applyEntries_lookup (es : List (String × Json))
    (cfgs : List (String × ClientConfig)) (k : String)
    (hnd : (es.map Prod.fst).Nodup) :
    lookupKey (applyEntries cfgs es) k =
      match lookupKey es k with
      | some v =>
        match parsedEntry k v with
        | .ok c => some c
        | .error _ => lookupKey cfgs k
      | none => lookupKey cfgs k := by
  induction es generalizing cfgs with
  | nil => rfl
  | cons p rest ih =>
    obtain ⟨k0, v0⟩ := p
    simp only [List.map_cons, List.nodup_cons] at hnd
    by_cases hk : k0 = k
    · subst hk
      show lookupKey (applyEntries (entryStep cfgs k0 v0) rest) k0 = _
      rw [applyEntries_lookup_not_mem _ _ _ hnd.1]
      have hl : lookupKey ((k0, v0) :: rest) k0 = some v0 := by simp [lookupKey]
      rw [hl]
      unfold entryStep
      cases heq : parsedEntry k0 v0 with
      | ok c => simp [heq, lookupKey_setKey_self]
      | error e => simp [heq]
    · show lookupKey (applyEntries (entryStep cfgs k0 v0) rest) k = _
      rw [ih _ hnd.2]
      have hne := entryStep_lookup_ne cfgs k0 k v0 (fun h => hk h.symm)
      have hl : lookupKey ((k0, v0) :: rest) k = lookupKey rest k := by
        simp [lookupKey, hk]
      rw [hne, hl]

/-! ### The invariant of every reachable mapping -/

/-- Well-formedness of the internal mapping: keys are distinct, every stored
config is keyed by its own `name`, and every stored config passed
construction-time validation. -/
def WFConfigs (cfgs : List (String × ClientConfig)) : Prop :=
  (cfgs.map Prod.fst).Nodup ∧ ∀ p ∈ cfgs, p.2.name = p.1 ∧ p.2.Valid

theorem WFConfigs_nil : WFConfigs [] := ⟨List.nodup_nil, by simp⟩

theorem WFConfigs_setKey (cfgs : List (String × ClientConfig)) (k : String)
    (c : ClientConfig) (h : WFConfigs cfgs) (hname : c.name = k) (hv : c.Valid) :
    WFConfigs (setKey cfgs k c) := by
  refine ⟨nodup_keys_setKey _ _ _ h.1, ?_⟩
  intro p hp
  rcases mem_setKey _ _ _ _ hp with hp | hp
  · subst hp; exact ⟨hname, hv⟩
  · exact h.2 p hp

theorem parseEntries_wf (es : List (String × Json))
    (cfgs : List (String × ClientConfig)) (log : List String)
    (r : List (String × ClientConfig)) (lg : List String)
    (hwf : WFConfigs cfgs) (h : parseEntries cfgs log es = .ok (r, lg)) :
    WFConfigs r := by
  induction es generalizing cfgs log with
  | nil =>
    simp only [parseEntries, Except.ok.injEq, Prod.mk.injEq] at h
    exact h.1 ▸ hwf
  | cons p rest ih =>
    obtain ⟨k, v⟩ := p
    cases v with
    | obj d =>
      rw [parseEntries] at h
      cases hfd : ClientConfig.from_dict (correctName k d) with
      | ok c =>
        rw [hfd] at h
        obtain ⟨hname, hv⟩ := from_dict_correctName_name _ _ _ hfd
        exact ih _ _ (WFConfigs_setKey _ _ _ hwf hname hv) h
      | error e =>
        have hcaught := ClientConfig.from_dict_error_caught _ _ hfd
        rw [hfd] at h
        simp only [hcaught, if_pos] at h
        exact ih _ _ hwf h
    | null => simp [parseEntries] at h
    | bool b => simp [parseEntries] at h
    | num n => simp [parseEntries] at h
    | str s => simp [parseEntries] at h
    | arr xs => simp [parseEntries] at h

theorem parse_config_data_ok (cfgs : List (String × ClientConfig)) (doc : Json)
    (r : List (String × ClientConfig)) (lg : List String)
    (h : parse_config_data cfgs doc = .ok (r, lg)) :
    ∃ es, doc = Json.obj es ∧ parseEntries cfgs [] es = .ok (r, lg) := by
  unfold parse_config_data at h
  cases doc with
  | obj es => exact ⟨es, rfl, h⟩
  | null => cases h
  | bool b => cases h
  | num n => cases h
  | str s => cases h
  | arr xs => cases h

theorem exceptMap_ok {ε α β : Type} (f : α → β) (x : Except ε α) (y : β)
    (h : x.map f = .ok y) : ∃ a, x = .ok a ∧ f a = y := by
  cases x with
  | ok a => exact ⟨a, rfl, by cases h; rfl⟩
  | error e => cases h

theorem load_configurations_ok (w : World) (cfgs r : List (String × ClientConfig))
    (source : String) (h : load_configurations w cfgs source = .ok r) :
    ∃ doc lg, parse_config_data cfgs doc = .ok (r, lg) := by
  unfold load_configurations at h
  split at h
  · unfold download_and_load at h
    cases hh : w.http source with
    | failure m => simp only [hh] at h; exact Except.noConfusion h
    | success body =>
      simp only [hh] at h
      cases body with
      | none => simp at h
      | some doc =>
        obtain ⟨a, ha, hfa⟩ := exceptMap_ok _ _ _ h
        exact ⟨doc, a.2, by rw [ha, ← hfa]⟩
  · split at h
    · unfold load_from_local_file at h
      cases hr : w.readFile source with
      | vanished => simp only [hr] at h; exact Except.noConfusion h
      | invalid => simp only [hr] at h; exact Except.noConfusion h
      | content doc =>
        simp only [hr] at h
        obtain ⟨a, ha, hfa⟩ := exceptMap_ok _ _ _ h
        exact ⟨doc, a.2, by rw [ha, ← hfa]⟩
    · cases h

theorem ConfigManager.init_ok_wf (w : World) (src : Option String) (fn : String)
    (m : ConfigManager) (h : ConfigManager.init w src fn = .ok m) :
    WFConfigs m.client_configs := by
  unfold ConfigManager.init at h
  split at h
  · cases h; exact WFConfigs_nil
  · rename_i cs0 s
    split at h
    · cases h; exact WFConfigs_nil
    · cases hload : load_configurations w [] s with
      | ok cfgs =>
        simp only [hload] at h
        cases h
        obtain ⟨doc, lg, hparse⟩ := load_configurations_ok _ _ _ _ hload
        obtain ⟨es, hdoc, hpe⟩ := parse_config_data_ok _ _ _ _ hparse
        exact parseEntries_wf _ _ _ _ _ WFConfigs_nil hpe
      | error e =>
        simp only [hload] at h
        exact Except.noConfusion h

/-- The manager states producible by the API: construction (with or without a
source) and any sequence of registrations of validly constructed configs.
The read operations are pure in this embedding and do not change the state. -/
inductive Reachable : ConfigManager → Prop where
  | construct (w : World) (src : Option String) (fn : String) (m : ConfigManager)
      (h : ConfigManager.init w src fn = .ok m) : Reachable m
  | register (m : ConfigManager) (c : ClientConfig) (hm : Reachable m)
      (hc : c.Valid) : Reachable (m.register_client_config c)

theorem Reachable.wf (m : ConfigManager) (h : Reachable m) :
    WFConfigs m.client_configs := by
  induction h with
  | construct w src fn m h => exact ConfigManager.init_ok_wf _ _ _ _ h
  | register m c hm hc ih =>
    exact WFConfigs_setKey _ _ _ ih rfl hc

/-! ### Reloading a saved document -/

theorem applyEntries_save (l : List (String × ClientConfig))
    (acc : List (String × ClientConfig))
    (hl : ∀ p ∈ l, p.2.name = p.1 ∧ p.2.Valid)
    (hnd : (l.map Prod.fst).Nodup)
    (hdisj : ∀ p ∈ l, lookupKey acc p.1 = none) :
    applyEntries acc (l.map (fun p => (p.1, Json.obj p.2.to_dict))) = acc ++ l := by
  induction l generalizing acc with
  | nil => simp [applyEntries]
  | cons p rest ih =>
    obtain ⟨k, c⟩ := p
    obtain ⟨hname, hvalid⟩ := hl (k, c) (List.mem_cons_self _ _)
    simp only [List.map_cons, List.nodup_cons] at hnd ⊢
    have hstep : entryStep acc k (Json.obj c.to_dict) = acc ++ [(k, c)] := by
      have hname' : c.name = k := hname
      have hcn : correctName k c.to_dict = c.to_dict := by
        rw [← hname']; exact correctName_to_dict c
      simp only [entryStep, parsedEntry, hcn, from_dict_to_dict c hvalid]
      exact setKey_eq_append _ _ _ (hdisj (k, c) (List.mem_cons_self _ _))
    show applyEntries (entryStep acc k (Json.obj c.to_dict))
        (rest.map (fun p => (p.1, Json.obj p.2.to_dict))) = acc ++ (k, c) :: rest
    rw [hstep]
    rw [ih (acc ++ [(k, c)])
      (fun q hq => hl q (List.mem_cons_of_mem _ hq)) hnd.2 ?_]
    · simp
    · intro q hq
      rw [lookupKey_append]
      have hq1 : lookupKey acc q.1 = none := hdisj q (List.mem_cons_of_mem _ hq)
      have hqk : q.1 ≠ k := by
        intro hqk
        exact hnd.1 (hqk ▸ List.mem_map.mpr ⟨q, hq, rfl⟩)
      rw [hq1]
      simp [lookupKey, Ne.symm hqk]

theorem save_output_entries (m : ConfigManager) :
    m.save_output = Json.obj (m.client_configs.map (fun p => (p.1, Json.obj p.2.to_dict))) :=
  rfl

theorem parse_save_output (m : ConfigManager) (hwf : WFConfigs m.client_configs) :
    parse_config_data [] m.save_output
      = .ok (m.client_configs,
          entriesLog (m.client_configs.map (fun p => (p.1, Json.obj p.2.to_dict)))) := by
  rw [save_output_entries]
  show parseEntries [] []
      (m.client_configs.map (fun p => (p.1, Json.obj p.2.to_dict))) = _
  rw [parseEntries_eq]
  · rw [applyEntries_save m.client_configs [] hwf.2
      (by simpa using hwf.1) (fun p hp => rfl)]
    simp
  · intro p hp
    rcases List.mem_map.mp hp with ⟨q, hq, rfl⟩
    rfl

/-! ### Shapes of load-time errors -/

theorem parseEntries_error (es : List (String × Json))
    (cfgs : List (String × ClientConfig)) (log : List String) (e : PyErr)
    (h : parseEntries cfgs log es = .error e) :
    e = .typeError "argument of type is not iterable" := by
  induction es generalizing cfgs log with
  | nil => simp [parseEntries] at h
  | cons p rest ih =>
    obtain ⟨k, v⟩ := p
    cases v with
    | obj d =>
      rw [parseEntries] at h
      cases hfd : ClientConfig.from_dict (correctName k d) with
      | ok c =>
        rw [hfd] at h
        exact ih _ _ h
      | error e' =>
        have hcaught := ClientConfig.from_dict_error_caught _ _ hfd
        rw [hfd] at h
        simp only [hcaught, if_pos] at h
        exact ih _ _ h
    | null => simp [parseEntries] at h; exact h.symm
    | bool b => simp [parseEntries] at h; exact h.symm
    | num n => simp [parseEntries] at h; exact h.symm
    | str s => simp [parseEntries] at h; exact h.symm
    | arr xs => simp [parseEntries] at h; exact h.symm

theorem parse_config_data_error (cfgs : List (String × ClientConfig)) (doc : Json)
    (e : PyErr) (h : parse_config_data cfgs doc = .error e) :
    e = .valueError "Configuration data must be a dictionary." ∨
      e = .typeError "argument of type is not iterable" := by
  unfold parse_config_data at h
  cases doc with
  | obj es => exact Or.inr (parseEntries_error _ _ _ _ h)
  | null => simp at h; exact Or.inl h.symm
  | bool b => simp at h; exact Or.inl h.symm
  | num n => simp at h; exact Or.inl h.symm
  | str s => simp at h; exact Or.inl h.symm
  | arr xs => simp at h; exact Or.inl h.symm

theorem parse_msg_ne_structural (src : String) :
    "Failed to parse JSON from " ++ src ≠ "Configuration data must be a dictionary." := by
  intro h
  have hd := congrArg String.data h
  rw [String.data_append] at hd
  have h2 := congrArg List.head? hd
  rw [show ("Failed to parse JSON from ".data ++ src.data).head? = some 'F' from rfl] at h2
  rw [show ("Configuration data must be a dictionary.".data).head? = some 'C' from rfl] at h2
  simp at h2

/-! ### Load-path helpers -/

/-- The top-level document a given source denotes in a given world: the body
of a successful HTTP GET on the remote path, or the parsed content of an
existing file on the local path. -/
def loadedDocument (w : World) (source : String) (doc : Json) : Prop :=
  ((urlScheme source = "http" ∨ urlScheme source = "https") ∧
      w.http source = FetchResult.success (some doc)) ∨
  (¬(urlScheme source = "http" ∨ urlScheme source = "https") ∧
      w.pathExists source = true ∧ w.readFile source = ReadResult.content doc)

theorem load_configurations_of_loadedDocument (w : World)
    (cfgs : List (String × ClientConfig)) (source : String) (doc : Json)
    (h : loadedDocument w source doc) :
    load_configurations w cfgs source = (parse_config_data cfgs doc).map Prod.fst := by
  unfold load_configurations
  rcases h with ⟨hs, hh⟩ | ⟨hs, hp, hr⟩
  · rw [if_pos hs]
    unfold download_and_load
    simp only [hh]
  · rw [if_neg hs, if_pos hp]
    unfold load_from_local_file
    simp only [hr]

theorem ConfigManager.init_some (w : World) (src fn : String) (h : src ≠ "") :
    ConfigManager.init w (some src) fn =
      match load_configurations w [] src with
      | .ok cfgs => .ok ⟨some src, fn, cfgs, true⟩
      | .error e => .error e := by
  simp only [ConfigManager.init]
  rw [if_neg h]

theorem parse_config_data_not_obj (cfgs : List (String × ClientConfig)) (doc : Json)
    (h : doc.isObj = false) :
    parse_config_data cfgs doc
      = .error (.valueError "Configuration data must be a dictionary.") := by
  cases doc with
  | obj es => simp [Json.isObj] at h
  | null => rfl
  | bool b => rfl
  | num n => rfl
  | str s => rfl
  | arr xs => rfl

theorem exceptMap_error {ε α β : Type} (f : α → β) (x : Except ε α) (e : ε)
    (h : x.map f = .error e) : x = .error e := by
  cases x with
  | ok a => cases h
  | error e' => cases h; rfl

theorem lookupKey_isSome_iff {α : Type} (d : List (String × α)) (k : String) :
    (lookupKey d k).isSome = true ↔ k ∈ d.map Prod.fst := by
  rw [Option.isSome_iff_ne_none]
  rw [ne_eq, lookupKey_eq_none]
  exact not_not

/-- Discriminates the validation-error outcome of construction
(a raised `ValueError`). -/
def isValidationError : Except PyErr ClientConfig → Bool
  | .error (.valueError _) => true
  | _ => false

/-! ### Claims -/

/-- C5: for all non-empty strings `name`, `endpoint_url`, `hostname`,
construction succeeds, and the constructed instance stores exactly those
values with a `None`/omitted `custom_properties` normalized to the empty
mapping (so `custom_properties` is always a mapping and never null); if any
of the three strings is empty, construction fails with a validation error
and no object is produced. -/
theorem construction_validation (name endpoint_url hostname : String)
    (name_space : Option String)
    (custom_properties : Option (List (String × Json))) :
    (name ≠ "" → endpoint_url ≠ "" → hostname ≠ "" →
        ClientConfig.init name endpoint_url hostname name_space custom_properties
          = .ok ⟨name, endpoint_url, hostname, name_space, custom_properties.getD []⟩) ∧
    ((name = "" ∨ endpoint_url = "" ∨ hostname = "") →
        isValidationError
          (ClientConfig.init name endpoint_url hostname name_space custom_properties)
          = true) := by
  constructor
  · intro h1 h2 h3
    unfold ClientConfig.init
    rw [if_neg h1, if_neg h2, if_neg h3]
  · intro h
    unfold ClientConfig.init
    rcases h with h | h | h
    · rw [if_pos h]; rfl
    · by_cases h1 : name = ""
      · rw [if_pos h1]; rfl
      · rw [if_neg h1, if_pos h]; rfl
    · by_cases h1 : name = ""
      · rw [if_pos h1]; rfl
      · rw [if_neg h1]
        by_cases h2 : endpoint_url = ""
        · rw [if_pos h2]; rfl
        · rw [if_neg h2, if_pos h]; rfl

/-- Witness for C5: a concrete successful construction (with omitted
`custom_properties` normalized to the empty mapping) and a concrete empty
`name` rejected with a validation error. -/
theorem construction_validation_witness :
    ClientConfig.init "client_a" "https://api.example.com/client_a" "api.example.com"
        (some "prod") none
      = .ok ⟨"client_a", "https://api.example.com/client_a", "api.example.com",
          some "prod", []⟩ ∧
    isValidationError (ClientConfig.init "" "u" "h" none none) = true :=
  ⟨(construction_validation _ _ _ _ _).1 (by decide) (by decide) (by decide),
   (construction_validation _ _ _ _ _).2 (Or.inl rfl)⟩

/-- C2: round-trip law: for every validly constructed `ClientConfig`,
`from_dict (to_dict c)` succeeds and returns a config equal to `c` in all
five fields (this covers an absent `namespace` and empty or nested
`custom_properties`, which are arbitrary here). -/
theorem record_roundtrip (c : ClientConfig) (hc : c.Valid) :
    ClientConfig.from_dict c.to_dict = .ok c :=
  from_dict_to_dict c hc

/-- Witness for C2: the round trip at a config with an absent namespace and a
nested custom-properties mapping. -/
theorem record_roundtrip_witness :
    ClientConfig.from_dict
        (ClientConfig.to_dict ⟨"a", "u", "h", none, [("k", Json.obj [("n", Json.num 3)])]⟩)
      = .ok ⟨"a", "u", "h", none, [("k", Json.obj [("n", Json.num 3)])]⟩ :=
  record_roundtrip _ (by decide)

/-- C8: `get_client_config` fails with a not-found error (`KeyError`) for
every name absent from the mapping — it never silently returns a default or
null value — and returns the stored instance for every name present. -/
theorem get_client_config_spec (m : ConfigManager) (n : String) :
    (lookupKey m.client_configs n = none →
        m.get_client_config n
          = .error (.keyError ("Client configuration for " ++ n ++ " not found."))) ∧
    (∀ c, lookupKey m.client_configs n = some c → m.get_client_config n = .ok c) := by
  constructor
  · intro h
    unfold ConfigManager.get_client_config
    simp only [h]
  · intro c h
    unfold ConfigManager.get_client_config
    simp only [h]

/-- Witness for C8: a concrete miss raising the not-found error and a
concrete hit returning the stored config. -/
theorem get_client_config_spec_witness :
    ConfigManager.get_client_config
        ⟨none, "f", [("a", ⟨"a", "u", "h", none, []⟩)], false⟩ "x"
      = .error (.keyError ("Client configuration for " ++ "x" ++ " not found.")) ∧
    ConfigManager.get_client_config
        ⟨none, "f", [("a", ⟨"a", "u", "h", none, []⟩)], false⟩ "a"
      = .ok ⟨"a", "u", "h", none, []⟩ :=
  ⟨(get_client_config_spec _ "x").1 rfl, (get_client_config_spec _ "a").2 _ rfl⟩

/-- C9: `register_client_config` never fails (it is a total function of the
state), stores exactly `c` under the key `c.name`, leaves the entry under
every other key unchanged, and modifies no other manager field. -/
theorem register_frame (m : ConfigManager) (c : ClientConfig) :
    lookupKey (m.register_client_config c).client_configs c.name = some c ∧
    (∀ k, k ≠ c.name →
        lookupKey (m.register_client_config c).client_configs k
          = lookupKey m.client_configs k) ∧
    (m.register_client_config c).config_source = m.config_source ∧
    (m.register_client_config c).default_filename = m.default_filename ∧
    (m.register_client_config c).loaded_from_source = m.loaded_from_source := by
  refine ⟨lookupKey_setKey_self _ _ _, ?_, rfl, rfl, rfl⟩
  intro k hk
  exact lookupKey_setKey_ne _ _ _ _ hk

/-- Witness for C9: registering over a one-entry mapping stores the new
config under its name and leaves the unrelated entry unchanged. -/
theorem register_frame_witness :
    lookupKey (ConfigManager.register_client_config
        ⟨none, "f", [("b", ⟨"b", "v", "g", none, []⟩)], false⟩
        ⟨"a", "u", "h", none, []⟩).client_configs "a"
      = some ⟨"a", "u", "h", none, []⟩ ∧
    lookupKey (ConfigManager.register_client_config
        ⟨none, "f", [("b", ⟨"b", "v", "g", none, []⟩)], false⟩
        ⟨"a", "u", "h", none, []⟩).client_configs "b"
      = lookupKey [("b", ⟨"b", "v", "g", none, []⟩)] "b" :=
  ⟨(register_frame _ _).1, (register_frame _ _).2.1 "b" (by decide)⟩

/-- C1: per-entry isolation of the parse/validate routine: for a top-level
document that is an object (with the distinct keys `json.load` produces and
per-client records that are objects), the load succeeds and no error
propagates, the resulting mapping excludes exactly the entries whose
per-entry construction fails (validation or missing-field error), and
contains every other valid client under its key. -/
theorem per_entry_isolation (kvs : List (String × Json))
    (hobj : ∀ p ∈ kvs, p.2.isObj = true)
    (hnd : (kvs.map Prod.fst).Nodup) :
    parse_config_data [] (Json.obj kvs)
        = .ok (applyEntries [] kvs, entriesLog kvs) ∧
    ∀ k v, (k, v) ∈ kvs →
      (∀ e, parsedEntry k v = .error e → lookupKey (applyEntries [] kvs) k = none) ∧
      (∀ c, parsedEntry k v = .ok c → lookupKey (applyEntries [] kvs) k = some c) := by
  constructor
  · show parseEntries [] [] kvs = _
    rw [parseEntries_eq _ _ _ hobj]
    simp
  · intro k v hkv
    have hl : lookupKey kvs k = some v := lookupKey_of_mem _ _ _ hnd hkv
    have hch := applyEntries_lookup kvs [] k hnd
    simp only [hl] at hch
    constructor
    · intro e he
      simp only [he] at hch
      exact hch
    · intro c hc
      simp only [hc] at hch
      exact hch

/-- Witness for C1: a two-entry document whose second record lacks
`hostname`; the load succeeds, the valid client is present, the bad entry is
absent. -/
theorem per_entry_isolation_witness :
    parse_config_data [] (Json.obj
        [("a", Json.obj [("endpoint_url", Json.str "https://x/a"),
            ("hostname", Json.str "x")]),
         ("b", Json.obj [("endpoint_url", Json.str "u")])])
      = .ok (applyEntries []
          [("a", Json.obj [("endpoint_url", Json.str "https://x/a"),
              ("hostname", Json.str "x")]),
           ("b", Json.obj [("endpoint_url", Json.str "u")])],
          entriesLog
          [("a", Json.obj [("endpoint_url", Json.str "https://x/a"),
              ("hostname", Json.str "x")]),
           ("b", Json.obj [("endpoint_url", Json.str "u")])]) ∧
    lookupKey (applyEntries []
        [("a", Json.obj [("endpoint_url", Json.str "https://x/a"),
            ("hostname", Json.str "x")]),
         ("b", Json.obj [("endpoint_url", Json.str "u")])]) "a"
      = some ⟨"a", "https://x/a", "x", none, []⟩ ∧
    lookupKey (applyEntries []
        [("a", Json.obj [("endpoint_url", Json.str "https://x/a"),
            ("hostname", Json.str "x")]),
         ("b", Json.obj [("endpoint_url", Json.str "u")])]) "b"
      = none := by
  refine ⟨(per_entry_isolation _ (by decide) (by decide)).1, ?_, ?_⟩
  · exact ((per_entry_isolation _ (by decide) (by decide)).2 "a" _
      (List.mem_cons_self _ _)).2 _ rfl
  · exact ((per_entry_isolation _ (by decide) (by decide)).2 "b" _
      (List.mem_cons_of_mem _ (List.mem_cons_self _ _))).1 (.keyError "hostname") rfl

/-- C4: name correction during parse: when a record's `name` field is absent
or differs from the outer key (the source's trigger, here the Boolean
`nameMatchesKey` being false), a successful load has emitted the diagnostic
warning for that key, and the config built from the corrected record carries
the outer key as its `name` and is stored in the mapping under that name. -/
theorem name_correction (kvs : List (String × Json))
    (cfgs r : List (String × ClientConfig)) (log : List String)
    (k : String) (d : List (String × Json)) (c : ClientConfig)
    (hmem : (k, Json.obj d) ∈ kvs)
    (hnd : (kvs.map Prod.fst).Nodup)
    (hmis : nameMatchesKey k d = false)
    (hparse : parse_config_data cfgs (Json.obj kvs) = .ok (r, log))
    (hc : ClientConfig.from_dict (correctName k d) = .ok c) :
    warnMsg k ∈ log ∧ c.name = k ∧ lookupKey r k = some c := by
  have hobj : ∀ p ∈ kvs, p.2.isObj = true :=
    parseEntries_ok_objs kvs cfgs [] (r, log) hparse
  have h2 : parseEntries cfgs [] kvs = .ok (r, log) := hparse
  rw [parseEntries_eq _ _ _ hobj] at h2
  simp only [List.nil_append, Except.ok.injEq, Prod.mk.injEq] at h2
  obtain ⟨hr, hlog⟩ := h2
  refine ⟨?_, (from_dict_correctName_name _ _ _ hc).1, ?_⟩
  · rw [← hlog]
    unfold entriesLog
    refine List.mem_flatten.mpr ⟨entryLog k (Json.obj d), ?_, ?_⟩
    · exact List.mem_map.mpr ⟨(k, Json.obj d), hmem, rfl⟩
    · simp [entryLog, hmis, hc]
  · rw [← hr]
    have hch := applyEntries_lookup kvs cfgs k hnd
    have hl : lookupKey kvs k = some (Json.obj d) := lookupKey_of_mem _ _ _ hnd hmem
    simp only [hl] at hch
    have hpe : parsedEntry k (Json.obj d) = .ok c := hc
    simp only [hpe] at hch
    exact hch

/-- Witness for C4: a record whose `name` field reads `wrong` under the key
`b`; the loaded mapping stores the config under `b` with `name = b`, and the
warning was printed. -/
theorem name_correction_witness :
    warnMsg "b" ∈ [warnMsg "b"] ∧
    (⟨"b", "u", "h", none, []⟩ : ClientConfig).name = "b" ∧
    lookupKey [("b", (⟨"b", "u", "h", none, []⟩ : ClientConfig))] "b"
      = some ⟨"b", "u", "h", none, []⟩ :=
  name_correction
    [("b", Json.obj [("name", Json.str "wrong"), ("endpoint_url", Json.str "u"),
        ("hostname", Json.str "h")])]
    [] [("b", ⟨"b", "u", "h", none, []⟩)] [warnMsg "b"] "b"
    [("name", Json.str "wrong"), ("endpoint_url", Json.str "u"),
        ("hostname", Json.str "h")]
    ⟨"b", "u", "h", none, []⟩
    (List.mem_cons_self _ _) (by decide) rfl rfl rfl

/-- C10: in every reachable manager state, membership of a name, occurrence
in `list_client_names` and success of `get_client_config` coincide, and the
reported size is the length of `list_client_names`, whose entries are
distinct.  All four reads are pure functions of the state in this embedding,
so they leave the state unchanged by construction. -/
theorem enumeration_consistency (m : ConfigManager) (n : String)
    (hm : Reachable m) :
    (m.containsName n = true ↔ n ∈ m.list_client_names) ∧
    (m.containsName n = true ↔ ∃ c, m.get_client_config n = .ok c) ∧
    m.size = m.list_client_names.length ∧
    m.list_client_names.Nodup := by
  have hwf := Reachable.wf m hm
  refine ⟨lookupKey_isSome_iff _ _, ?_, ?_, hwf.1⟩
  · unfold ConfigManager.containsName ConfigManager.get_client_config
    cases hl : lookupKey m.client_configs n with
    | none => simp [hl]
    | some c => simp [hl]
  · simp [ConfigManager.size, ConfigManager.list_client_names]

/-- Witness for C10: a reachable one-entry manager whose size matches the
length of its distinct name list. -/
theorem enumeration_consistency_witness :
    (ConfigManager.register_client_config ⟨none, "f", [], false⟩
        ⟨"a", "u", "h", none, []⟩).size
      = (ConfigManager.register_client_config ⟨none, "f", [], false⟩
        ⟨"a", "u", "h", none, []⟩).list_client_names.length ∧
    (ConfigManager.register_client_config ⟨none, "f", [], false⟩
        ⟨"a", "u", "h", none, []⟩).list_client_names.Nodup := by
  have hr : Reachable (ConfigManager.register_client_config ⟨none, "f", [], false⟩
      ⟨"a", "u", "h", none, []⟩) :=
    Reachable.register _ _
      (Reachable.construct ⟨fun _ => FetchResult.failure "", fun _ => false,
        fun _ => ReadResult.vanished⟩ none "f" _ rfl) (by decide)
  exact ⟨(enumeration_consistency _ "a" hr).2.2.1, (enumeration_consistency _ "a" hr).2.2.2⟩

/-- C6: top-level load atomicity: when the document a non-empty source
denotes is not an object, construction fails with the structural error; and
every top-level load failure propagates out of construction unchanged, so no
manager value with a partial mapping is ever produced. -/
theorem top_level_atomicity (w : World) (src fn : String) (hsrc : src ≠ "") :
    (∀ doc : Json, loadedDocument w src doc → doc.isObj = false →
        ConfigManager.init w (some src) fn
          = .error (.valueError "Configuration data must be a dictionary.")) ∧
    (∀ e : PyErr, load_configurations w [] src = .error e →
        ConfigManager.init w (some src) fn = .error e) := by
  have habort : ∀ e : PyErr, load_configurations w [] src = .error e →
      ConfigManager.init w (some src) fn = .error e := by
    intro e he
    rw [ConfigManager.init_some w src fn hsrc]
    simp only [he]
  refine ⟨?_, habort⟩
  intro doc hdoc hobj
  apply habort
  rw [load_configurations_of_loadedDocument w [] src doc hdoc,
    parse_config_data_not_obj _ _ hobj]
  rfl

/-- Witness for C6: a local file holding the top-level JSON array
`["not", "an", "object"]`; construction fails with the structural error. -/
theorem top_level_atomicity_witness :
    ConfigManager.init
        ⟨fun _ => FetchResult.failure "", fun _ => true,
          fun _ => ReadResult.content
            (Json.arr [Json.str "not", Json.str "an", Json.str "object"])⟩
        (some "cfg.json") "f"
      = .error (.valueError "Configuration data must be a dictionary.") :=
  (top_level_atomicity _ "cfg.json" "f" (by decide)).1
    (Json.arr [Json.str "not", Json.str "an", Json.str "object"])
    (Or.inr ⟨by decide, rfl, rfl⟩) rfl

/-- C7: remote-load error classification: for a source with an `http` or
`https` scheme, the load fails with an `IOError` exactly when the HTTP GET
fails or returns a non-success status, and fails with the parse `ValueError`
(a distinct error) exactly when the response body is not valid JSON. -/
theorem remote_error_classification (w : World) (src : String)
    (cfgs : List (String × ClientConfig))
    (hscheme : urlScheme src = "http" ∨ urlScheme src = "https") :
    ((∃ m, w.http src = FetchResult.failure m) ↔
        (∃ m, load_configurations w cfgs src = .error (.ioError m))) ∧
    (w.http src = FetchResult.success none ↔
        load_configurations w cfgs src
          = .error (.valueError ("Failed to parse JSON from " ++ src))) := by
  have hload : load_configurations w cfgs src = download_and_load w src cfgs := by
    unfold load_configurations
    rw [if_pos hscheme]
  rw [hload]
  constructor
  · constructor
    · rintro ⟨m, hm⟩
      unfold download_and_load
      simp only [hm]
      exact ⟨_, rfl⟩
    · rintro ⟨m, hm⟩
      unfold download_and_load at hm
      cases hh : w.http src with
      | failure m2 => exact ⟨m2, rfl⟩
      | success body =>
        simp only [hh] at hm
        cases body with
        | none => exact PyErr.noConfusion (Except.error.inj hm)
        | some doc =>
          have hp := exceptMap_error _ _ _ hm
          rcases parse_config_data_error _ _ _ hp with h | h
          · exact PyErr.noConfusion h
          · exact PyErr.noConfusion h
  · constructor
    · intro hm
      unfold download_and_load
      simp only [hm]
    · intro hm
      unfold download_and_load at hm
      cases hh : w.http src with
      | failure m2 =>
        simp only [hh] at hm
        exact PyErr.noConfusion (Except.error.inj hm)
      | success body =>
        simp only [hh] at hm
        cases body with
        | none => rfl
        | some doc =>
          have hp := exceptMap_error _ _ _ hm
          rcases parse_config_data_error _ _ _ hp with h | h
          · exact absurd (PyErr.valueError.inj h).symm
              (Ne.symm (parse_msg_ne_structural src))
          · exact PyErr.noConfusion h

/-- Witness for C7: a GET whose response body is not valid JSON is reported
as the parse `ValueError` naming the URL. -/
theorem remote_error_classification_witness :
    load_configurations
        ⟨fun _ => FetchResult.success none, fun _ => false,
          fun _ => ReadResult.vanished⟩ [] "http://x"
      = .error (.valueError ("Failed to parse JSON from " ++ "http://x")) :=
  (remote_error_classification _ "http://x" [] (Or.inl rfl)).2.mp rfl

/-- C3: save/load round trip: for every reachable manager state, saving to a
path (that is not classified as a URL) and constructing a new manager from
that path yields a manager whose mapping equals the original mapping entry
for entry. -/
theorem save_load_roundtrip (w : World) (m : ConfigManager) (p fn : String)
    (hm : Reachable m) (hp0 : p ≠ "")
    (hp1 : urlScheme p ≠ "http") (hp2 : urlScheme p ≠ "https") :
    ConfigManager.init (ConfigManager.save_configurations w m (some p)) (some p) fn
      = .ok ⟨some p, fn, m.client_configs, true⟩ := by
  have hwf := Reachable.wf m hm
  rw [ConfigManager.init_some _ _ _ hp0]
  have hsave : ConfigManager.save_configurations w m (some p)
      = writeFile w p m.save_output := rfl
  have hload : load_configurations (writeFile w p m.save_output) [] p
      = .ok m.client_configs := by
    unfold load_configurations
    have hns : ¬(urlScheme p = "http" ∨ urlScheme p = "https") := by
      rintro (h | h)
      exacts [hp1 h, hp2 h]
    rw [if_neg hns]
    have hex : (writeFile w p m.save_output).pathExists p = true := by
      simp [writeFile]
    rw [if_pos hex]
    unfold load_from_local_file
    have hrf : (writeFile w p m.save_output).readFile p
        = ReadResult.content m.save_output := by
      simp [writeFile]
    simp only [hrf]
    rw [parse_save_output m hwf]
    rfl
  rw [hsave]
  simp only [hload]

/-- Witness for C3: a reachable one-entry manager saved to `out.json` and
reloaded from it; the new manager holds the same mapping. -/
theorem save_load_roundtrip_witness :
    ConfigManager.init
        (ConfigManager.save_configurations
          ⟨fun _ => FetchResult.failure "", fun _ => false, fun _ => ReadResult.vanished⟩
          (ConfigManager.register_client_config ⟨none, "f", [], false⟩
            ⟨"a", "u", "h", none, []⟩)
          (some "out.json"))
        (some "out.json") "f"
      = .ok ⟨some "out.json", "f",
          (ConfigManager.register_client_config ⟨none, "f", [], false⟩
            ⟨"a", "u", "h", none, []⟩).client_configs, true⟩ :=
  save_load_roundtrip _ _ _ _
    (Reachable.register _ _
      (Reachable.construct ⟨fun _ => FetchResult.failure "", fun _ => false,
        fun _ => ReadResult.vanished⟩ none "f" _ rfl) (by decide))
    (by decide) (by decide) (by decide)
